import Mathlib

set_option maxRecDepth 16384

/-!
Verification of the news-analyzer crawl-and-relevance pipeline.

This file gives a shallow embedding, in Lean 4, of the core of the
repository `news_analyzer_fastapi`:

* the URL/link classifier and the crawl scheduler of
  `backend/utils/trafilatura_spider.py` (`parse`, `start_requests`,
  `is_likely_article_url`, `is_category_page`, `is_pagination_link`,
  `is_internal_link`, `is_valid_url`, `get_domain`),
* the content-extraction fallback chain of `parse_article`,
* the scraper run cache of `backend/utils/llm_functions.py`
  (`run_scraper`, `clear_scraper_cache`),
* the batched relevance filter (`batch_filter_articles`) and the
  summarization stage (`summarize_articles_async`) of the same module.

Python strings are modelled as Lean `String`s; every string operation the
source uses (`lower`, `strip`, slicing, `split`, `join`, `in`,
`startswith`, `endswith`, `sorted`) is re-implemented below by structural
recursion on the character list so that all definitions evaluate inside
the kernel.  The Python regex patterns of the spider are all of four
simple shapes (plain substring, suffix anchored by `$`, substring
followed by at least one digit, and the two date/slug shapes), and each
shape is embedded as a decidable scan over the character list; `re`'s
`IGNORECASE` flag is modelled by lowercasing the URL first (all patterns
are ASCII).  Network, HTML parsing and the LLM collaborators are oracle
inputs: a page is identified with the list of candidate absolute links
extracted from it, and collaborator calls are `Option`-valued functions
(`none` models a raised exception).
-/

/-! ## Python string primitives (structural, kernel-computable) -/

/-- ASCII lowercase of one character, as Python `str.lower` acts on the
ASCII range (all spider patterns are ASCII). -/
def lowerChar (c : Char) : Char :=
  if 'A' ≤ c ∧ c ≤ 'Z' then Char.ofNat (c.toNat + 32) else c

/-- Python `url.lower()` (ASCII range). -/
def pyLower (s : String) : String :=
  String.mk (s.data.map lowerChar)

/-- Does the character list start with the given pattern? -/
def chStarts : List Char → List Char → Bool
  | [], _ => true
  | _ :: _, [] => false
  | p :: ps, c :: cs => p == c && chStarts ps cs

/-- Does the pattern occur as a contiguous substring?  This is Python's
`re.search` for a plain-text pattern (and Python's `pat in s`). -/
def chContains (pat : List Char) : List Char → Bool
  | [] => chStarts pat []
  | c :: cs => chStarts pat (c :: cs) || chContains pat cs

/-- Substring test on strings. -/
def hasSub (pat s : String) : Bool :=
  chContains pat.data s.data

/-- Pattern occurrence immediately followed by a decimal digit: Python
`re.search(pat + r"\d+", s)` for a plain-text `pat`. -/
def chStartsThenDigit : List Char → List Char → Bool
  | [], c :: _ => c.isDigit
  | [], [] => false
  | _ :: _, [] => false
  | p :: ps, c :: cs => p == c && chStartsThenDigit ps cs

/-- Search version of `chStartsThenDigit`. -/
def chContainsThenDigit (pat : List Char) : List Char → Bool
  | [] => false
  | c :: cs => chStartsThenDigit pat (c :: cs) || chContainsThenDigit pat cs

/-- Does a date of the shape `\d{4}sep\d{2}sep\d{2}` start here? -/
def dateAt (sep : Char) (l : List Char) : Bool :=
  match l with
  | d1 :: d2 :: d3 :: d4 :: s1 :: e1 :: e2 :: s2 :: f1 :: f2 :: _ =>
    d1.isDigit && d2.isDigit && d3.isDigit && d4.isDigit && s1 == sep &&
    e1.isDigit && e2.isDigit && s2 == sep && f1.isDigit && f2.isDigit
  | _ => false

/-- Python `re.search(r"\d{4}sep\d{2}sep\d{2}", s)`: the pattern matches
somewhere iff it matches at some position. -/
def containsDate (sep : Char) : List Char → Bool
  | [] => false
  | c :: cs => dateAt sep (c :: cs) || containsDate sep cs

/-- Window form of the slug pattern `[a-z-]+-\d+` (with `IGNORECASE` on a
lowercased string): the regex matches iff some position holds a

character of `[a-z-]`, then a literal `-`, then a digit. -/
def slugAt (l : List Char) : Bool :=
  match l with
  | a :: b :: c :: _ => (a.isLower || a == '-') && b == '-' && c.isDigit
  | _ => false

/-- Search version of `slugAt`. -/
def containsSlug : List Char → Bool
  | [] => false
  | c :: cs => slugAt (c :: cs) || containsSlug cs

/-- Suffix test: Python `re.search(r"\.pdf$", s)` and friends. -/
def chSuffix (pat s : String) : Bool :=
  chStarts pat.data.reverse s.data.reverse

/-- Leading-whitespace removal, one side of Python `str.strip()`. -/
def dropWs : List Char → List Char
  | [] => []
  | c :: cs => if c.isWhitespace then dropWs cs else c :: cs

/-- Python `url.strip()`. -/
def pyStrip (s : String) : String :=
  String.mk ((dropWs (dropWs s.data).reverse).reverse)

/-- Python `s.startswith(p)`. -/
def pyStarts (p s : String) : Bool :=
  chStarts p.data s.data

/-- Python `s[:n]`. -/
def pyTake (n : Nat) (s : String) : String :=
  String.mk (s.data.take n)

/-- Python `s[n:]`. -/
def pyDrop (n : Nat) (s : String) : String :=
  String.mk (s.data.drop n)

/-- Python `s.split(sep)` for a one-character separator: always returns a
non-empty list of (possibly empty) groups. -/
def splitOnChar (sep : Char) : List Char → List (List Char)
  | [] => [[]]
  | c :: cs =>
    if c == sep then [] :: splitOnChar sep cs
    else
      match splitOnChar sep cs with
      | [] => [[c]]
      | g :: gs => (c :: g) :: gs

/-- Python `content.split('.')`. -/
def pySplitDot (s : String) : List String :=
  (splitOnChar '.' s.data).map String.mk

/-- Python `sep.join(parts)`. -/
def pyJoin (sep : String) : List String → String
  | [] => ""
  | [s] => s
  | s :: rest => s ++ sep ++ pyJoin sep rest

/-! ## Link classifier (`trafilatura_spider.py`) -/

/-- Plain-substring skip patterns of `is_likely_article_url` and
`is_internal_link` (identical lists in the source), lowercased as the URL
is matched case-insensitively. -/
def skipSubPats : List String :=
  ["/login", "/signup", "/subscribe", "/advertise", "/contact",
   "/about", "/privacy", "/terms", "/cookie", "/sitemap",
   "/search", "/tag/", "/category/", "/author/", "/user/",
   "/video/", "/gallery/", "/slideshow/", "/interactive/",
   "/newsletter", "/rss", "/feed", "/api/", "/ajax/",
   "#", "?utm_", "?fbclid", "?ref=", "?source="]

/-- Suffix-anchored skip patterns (`\.pdf$`, media files). -/
def skipEndPats : List String :=
  [".pdf", ".jpg", ".png", ".gif", ".mp4", ".mp3"]

/-- Does the URL match any skip pattern?  (The boolean OR over the
pattern list; the source checks them in sequence and returns on the
first hit, which yields the same boolean.) -/
def matchesSkip (url : String) : Bool :=
  let u := pyLower url
  skipSubPats.any (fun p => hasSub p u) || skipEndPats.any (fun p => chSuffix p u)

/-- Plain-substring article indicators of `is_likely_article_url`. -/
def articleSubPats : List String :=
  ["/article/", "/story/", "/news/", "/business/", "/finance/",
   "/markets/", "/economy/", "/technology/", "/earnings/",
   "/analysis/", "/commentary/", "/opinion/", "/report/"]

/-- Does the URL match any article indicator (substring patterns, the two
date shapes `\d{4}/\d{2}/\d{2}` and `\d{4}-\d{2}-\d{2}`, or the
ID-bearing slug `[a-z-]+-\d+`)? -/
def matchesArticlePat (url : String) : Bool :=
  let u := pyLower url
  articleSubPats.any (fun p => hasSub p u) ||
    containsDate '/' u.data || containsDate '-' u.data || containsSlug u.data

/-- Model of `TrafilaturaSpider.is_likely_article_url`: skip patterns
first (return `False`), then article indicators (return `True`), else
the length-over-50 heuristic. -/
def is_likely_article_url (url domain : String) : Bool :=
  if matchesSkip url then false
  else if matchesArticlePat url then true
  else url.length > 50

/-- Category patterns of `is_category_page` (all plain substrings). -/
def categorySubPats : List String :=
  ["/business/", "/finance/", "/markets/", "/economy/", "/technology/",
   "/news/", "/world/", "/politics/", "/opinion/", "/analysis/",
   "/earnings/", "/stocks/", "/commodities/", "/currencies/",
   "/cryptocurrency/", "/crypto/", "/blockchain/", "/ai/",
   "/artificial-intelligence/", "/startups/", "/venture-capital/",
   "/ipo/", "/mergers/", "/acquisitions/", "/regulation/", "/policy/",
   "/trade/", "/tariffs/", "/inflation/", "/interest-rates/",
   "/federal-reserve/", "/central-bank/", "/monetary-policy/"]

/-- Model of `TrafilaturaSpider.is_category_page`.  Note that the source
performs no skip-pattern check here. -/
def is_category_page (url domain : String) : Bool :=
  categorySubPats.any (fun p => hasSub p (pyLower url))

/-- Pagination patterns of `is_pagination_link`: every one is a literal
followed by `\d+`. -/
def paginationPats : List String :=
  ["/page/", "/p/", "/page", "/p",
   "?page=", "&page=", "?p=", "&p=",
   "/news/page/", "/business/page/", "/technology/page/",
   "/finance/page/", "/markets/page/", "/economy/page/",
   "page=", "p=", "offset=", "start="]

/-- Model of `TrafilaturaSpider.is_pagination_link`. -/
def is_pagination_link (url domain : String) : Bool :=
  paginationPats.any (fun p => chContainsThenDigit p.data (pyLower url).data)

/-- Model of `urlparse(url).netloc`: empty unless the URL carries an
explicit `http(s)` scheme, else the host part up to `/`, `?` or `#`. -/
def getNetloc (url : String) : String :=
  let rest :=
    if pyStarts "https://" url then pyDrop 8 url
    else if pyStarts "http://" url then pyDrop 7 url
    else ""
  String.mk (rest.data.takeWhile (fun c => !(c == '/') && !(c == '?') && !(c == '#')))

/-- Model of `TrafilaturaSpider.get_domain`. -/
def get_domain (url : String) : String :=
  getNetloc url

/-- Shared host test of `is_valid_url` and `is_internal_link`: same
netloc, subdomain of the crawl domain, or parent domain of it. -/
def sameDomain (url domain : String) : Bool :=
  let netloc := getNetloc url
  netloc == domain || chSuffix ("." ++ domain) netloc || chSuffix ("." ++ netloc) domain

/-- Model of `TrafilaturaSpider.is_valid_url` (the `try` never falls into
the `except` branch for our string-level model of `urlparse`). -/
def is_valid_url (url domain : String) : Bool :=
  sameDomain url domain

/-- Model of `TrafilaturaSpider.is_internal_link`: the same skip patterns
as `is_likely_article_url`, then the host test. -/
def is_internal_link (url domain : String) : Bool :=
  if matchesSkip url then false
  else sameDomain url domain

/-- Result of classifying one extracted link, as the `elif` chain of
`TrafilaturaSpider.parse` does (lines 192-217): a link that falls through
every check is dropped (`Reject`). -/
inductive LinkClass where
  | Article
  | Category
  | Pagination
  | InternalNav
  | Reject
deriving DecidableEq

/-- The link classification performed by the dispatch chain of `parse`:
`is_likely_article_url` first, then `is_category_page`, then
`is_pagination_link`, then `is_internal_link`, else the link is ignored. -/
def classify (url domain : String) : LinkClass :=
  if is_likely_article_url url domain then .Article
  else if is_category_page url domain then .Category
  else if is_pagination_link url domain then .Pagination
  else if is_internal_link url domain then .InternalNav
  else .Reject

/-! ## Claim C1: skip-pattern precedence in `classify` -/

/-- C1 counterexample: the claim says every URL matching a skip pattern
is classified `Reject`, short-circuiting the category and pagination
checks.  In the source the skip patterns are tested only inside
`is_likely_article_url` and `is_internal_link`; `is_category_page` and
`is_pagination_link` never consult them, so the feed URL
`https://ex.com/news/feed` (skip pattern `/feed`) is classified
`Category` via its `/news/` segment, not `Reject`. -/
theorem C1_skip_counterexample :
    matchesSkip "https://ex.com/news/feed" = true ∧
    classify "https://ex.com/news/feed" "ex.com" = LinkClass.Category ∧
    classify "https://ex.com/news/feed" "ex.com" ≠ LinkClass.Reject := by
  decide

/-- C1 amended: for every URL matching a skip pattern, classification
never returns `Article` and never returns `InternalNav` (those two
checks test the skip patterns first and fail), but such a URL may still
be classified `Category` or `Pagination` when it matches those pattern
lists. -/
theorem C1_skip_amended (url domain : String) (h : matchesSkip url = true) :
    classify url domain ≠ LinkClass.Article ∧
    classify url domain ≠ LinkClass.InternalNav := by
  have ha : is_likely_article_url url domain = false := by
    simp [is_likely_article_url, h]
  have hi : is_internal_link url domain = false := by
    simp [is_internal_link, h]
  simp only [classify, ha, hi, Bool.false_eq_true, if_false]
  split
  · exact ⟨by simp, by simp⟩
  · split
    · exact ⟨by simp, by simp⟩
    · exact ⟨by simp, by simp⟩

/-- C1 amended, witness at the concrete skip URL of the counterexample. -/
theorem C1_skip_amended_witness :
    classify "https://ex.com/news/feed" "ex.com" ≠ LinkClass.Article ∧
    classify "https://ex.com/news/feed" "ex.com" ≠ LinkClass.InternalNav :=
  C1_skip_amended "https://ex.com/news/feed" "ex.com" (by decide)

/-! ## Crawl frontier and scheduler (`start_requests` / `parse`) -/

/-- Constant `self.max_articles_per_source` (spider `__init__`, 50). -/
def max_articles_per_source : Nat := 50

/-- Constant `self.max_pages_per_source` (spider `__init__`, 10). -/
def max_pages_per_source : Nat := 10

/-- Constant `self.max_depth` (spider `__init__`, 3). -/
def max_depth : Nat := 3

/-- Python `set.add` on the visited set, modelled as a duplicate-free
list. -/
def addVisited (u : String) (s : List String) : List String :=
  if u ∈ s then s else u :: s

/-- Lookup in `self.site_page_count` after `setdefault(domain, 0)`. -/
def getCount (d : String) : List (String × Nat) → Nat
  | [] => 0
  | (k, n) :: rest => if k = d then n else getCount d rest

/-- The increment `self.site_page_count[domain] += 1` (with the
`setdefault` that precedes it). -/
def incrCount (d : String) : List (String × Nat) → List (String × Nat)
  | [] => [(d, 1)]
  | (k, n) :: rest => if k = d then (k, n + 1) :: rest else (k, n) :: incrCount d rest

/-- The four per-page buckets built by the classification loop of
`parse`: article links yield fetch requests immediately, the other three
are accumulated for follow-up scheduling. -/
structure LinkBuckets where
  articleReqs : List String
  category_links : List String
  pagination_links : List String
  internal_links : List String
deriving DecidableEq

/-- The `for link in links` classification loop of `parse` (lines
187-217): a local `article_count` starts at 0 on every page, the loop
breaks once it reaches `max_articles_per_source`, and each link goes to
the first matching bucket of the `elif` chain. -/
def collectLinks (domain : String) : List String → Nat → LinkBuckets → LinkBuckets
  | [], _, acc => acc
  | link :: rest, article_count, acc =>
    if article_count ≥ max_articles_per_source then acc
    else if is_likely_article_url link domain then
      collectLinks domain rest (article_count + 1)
        { acc with articleReqs := acc.articleReqs ++ [link] }
    else if is_category_page link domain then
      collectLinks domain rest article_count
        { acc with category_links := acc.category_links ++ [link] }
    else if is_pagination_link link domain then
      collectLinks domain rest article_count
        { acc with pagination_links := acc.pagination_links ++ [link] }
    else if is_internal_link link domain then
      collectLinks domain rest article_count
        { acc with internal_links := acc.internal_links ++ [link] }
    else
      collectLinks domain rest article_count acc

/-- One follow-up scheduling loop of `parse`: for each candidate in
order, skip it when it is already in `processed_urls`, otherwise add it
to `processed_urls` and issue a page request for it.  Returns the new
visited set and the issued URLs in order. -/
def scheduleFollows : List String → List String → List String × List String
  | visited, [] => (visited, [])
  | visited, c :: cs =>
    if c ∈ visited then scheduleFollows visited cs
    else
      ((scheduleFollows (c :: visited) cs).1, c :: (scheduleFollows (c :: visited) cs).2)

/-- One follow-up block of `parse` (`if <bucket> and current_depth <
self.max_depth: for link in <bucket>[:cap]: ...`). -/
def followBlock (bucket : List String) (depth : Nat) (cap : Nat)
    (visited : List String) : List String × List String :=
  if bucket ≠ [] ∧ depth < max_depth then scheduleFollows visited (bucket.take cap)
  else (visited, [])

/-- State of one crawl run: the visited set `processed_urls`, the
per-domain page counter `site_page_count`, every article fetch request
issued so far (`parse_article` requests, in issue order), every page
fetch request issued so far (seed and follow-up `parse` requests, in
issue order), and the pending page requests with their depths.  Requests
are processed sequentially; none of the properties proved below depends
on the dequeue order. -/
structure CrawlState where
  processed_urls : List String
  site_page_count : List (String × Nat)
  articleFetches : List String
  pageFetches : List String
  queue : List (String × Nat)
deriving DecidableEq

/-- Model of one `parse(response)` call on a fetched page, driven by the
oracle `web` that returns the candidate absolute links extracted from a
page URL (the output of `extract_links` before its `is_valid_url`
filter, which is applied here).  Mirrors lines 164-274 of the spider:
bump the page counter and stop if over `max_pages_per_source`; classify
the links with a page-local article counter, issuing every article link
as a fetch request with no dedup check; then follow up to 3 category, 2
pagination and 2 internal links, each gated by the depth bound and the
visited set. -/
def parsePage (web : String → List String) (st : CrawlState)
    (url : String) (depth : Nat) : CrawlState :=
  let domain := get_domain url
  let counts := incrCount domain st.site_page_count
  if getCount domain counts > max_pages_per_source then
    { st with site_page_count := counts }
  else
    let links := (web url).filter (fun l => is_valid_url l domain)
    let b := collectLinks domain links 0 ⟨[], [], [], []⟩
    let s1 := followBlock b.category_links depth 3 st.processed_urls
    let s2 := followBlock b.pagination_links depth 2 s1.1
    let s3 := followBlock b.internal_links depth 2 s2.1
    let follows := s1.2 ++ s2.2 ++ s3.2
    { processed_urls := s3.1
      site_page_count := counts
      articleFetches := st.articleFetches ++ b.articleReqs
      pageFetches := st.pageFetches ++ follows
      queue := st.queue ++ follows.map (fun u => (u, depth + 1)) }

/-- Run the crawl: repeatedly dequeue a pending page request and parse
it.  `fuel` bounds the number of pages parsed; every run of the real
spider corresponds to some sufficiently large fuel. -/
def crawl (web : String → List String) : Nat → CrawlState → CrawlState
  | 0, st => st
  | fuel + 1, st =>
    match st.queue with
    | [] => st
    | (url, depth) :: rest =>
      crawl web fuel (parsePage web { st with queue := rest } url depth)

/-- Seed normalization of `start_requests`: inject an `https` scheme when
missing, strip whitespace, and drop empty or under-10-character URLs. -/
def normalizeSeed (s : String) : Option String :=
  let u := if pyStarts "http://" s || pyStarts "https://" s then s else "https://" ++ s
  let u := pyStrip u
  if u = "" ∨ u.length < 10 then none else some u

/-- Initial crawl state built by `start_requests`: each normalized seed
is added to `processed_urls` and issued as a depth-0 page request (the
source adds and yields without any membership check). -/
def initState (sources : List String) : CrawlState :=
  let seeds := sources.filterMap normalizeSeed
  { processed_urls := seeds.foldl (fun acc u => addVisited u acc) []
    site_page_count := []
    articleFetches := []
    pageFetches := seeds
    queue := seeds.map (fun u => (u, 0)) }

/-! ## Claim C2: the per-domain article cap -/

/-- Concrete two-page site for C2: the seed page of `a.com` carries one
category link (`/world/`) and 50 article links; the category page
carries one more article link. -/
def webC2 : String → List String :=
  fun u =>
    if u = "https://a.com" then
      "https://a.com/world/" ::
        (List.range 50).map (fun i => "https://a.com/article/p" ++ String.mk (List.replicate i 'x'))
    else if u = "https://a.com/world/" then ["https://a.com/article/q-9"]
    else []

/-- C2 failing run, evaluated: on `webC2` the spider issues 51 article
fetch requests for the domain `a.com`, exceeding
`max_articles_per_source = 50`.  The source increments only the local
`article_count` of each `parse` call; the per-domain
`self.site_article_count` dictionary is initialized and `setdefault`-ed
but never incremented or read, so the cap is per page, not per domain
per run. -/
theorem C2_article_cap_eval :
    ((crawl webC2 4 (initState ["a.com"])).articleFetches.filter
        (fun u => get_domain u == "a.com")).length = 51 ∧
    max_articles_per_source = 50 := by
  constructor
  · decide
  · decide

/-! ## Claim C3: dedup of fetch requests -/

/-- Concrete site for C3: the article link `dup-1` appears both on the
seed page of `b.com` and on its `/world/` category page. -/
def webC3 : String → List String :=
  fun u =>
    if u = "https://b.com" then ["https://b.com/world/", "https://b.com/article/dup-1"]
    else if u = "https://b.com/world/" then ["https://b.com/article/dup-1"]
    else []

/-- C3 counterexample: the claim says no URL is ever fetched twice in a
run.  Article fetch requests are issued without consulting or updating
`processed_urls` (lines 197-211 of the spider), so the article URL
discovered on two different pages of `webC3` is fetched twice. -/
theorem C3_dedup_counterexample :
    (crawl webC3 4 (initState ["b.com"])).articleFetches.count
        "https://b.com/article/dup-1" = 2 ∧
    ¬ ((crawl webC3 4 (initState ["b.com"])).pageFetches ++
        (crawl webC3 4 (initState ["b.com"])).articleFetches).Nodup := by
  constructor
  · decide
  · decide

/-- Auxiliary membership fact for the seed fold of `start_requests`. -/
theorem mem_foldl_addVisited (l : List String) (acc : List String) (u : String)
    (h : u ∈ acc ∨ u ∈ l) : u ∈ l.foldl (fun a x => addVisited x a) acc := by
  induction l generalizing acc with
  | nil => simpa using h
  | cons x xs ih =>
    simp only [List.foldl_cons]
    apply ih
    rcases h with h | h
    · left
      unfold addVisited
      split
      · exact h
      · exact List.mem_cons_of_mem _ h
    · rcases List.mem_cons.mp h with h | h
      · subst h
        left
        unfold addVisited
        split
        · assumption
        · exact List.mem_cons_self _ _
      · right
        exact h

/-- Specification of one follow-up scheduling loop: the visited set only
grows, the issued URLs are pairwise distinct, none of them was visited
before the loop, and all of them are visited after it. -/
theorem scheduleFollows_spec (cands : List String) : ∀ visited : List String,
    (∀ x ∈ visited, x ∈ (scheduleFollows visited cands).1) ∧
    (scheduleFollows visited cands).2.Nodup ∧
    (∀ u ∈ (scheduleFollows visited cands).2, u ∉ visited) ∧
    (∀ u ∈ (scheduleFollows visited cands).2, u ∈ (scheduleFollows visited cands).1) := by
  induction cands with
  | nil =>
    intro visited
    simp [scheduleFollows]
  | cons c cs ih =>
    intro visited
    by_cases hc : c ∈ visited
    · simp only [scheduleFollows, if_pos hc]
      exact ih visited
    · simp only [scheduleFollows, if_neg hc]
      obtain ⟨h1, h2, h3, h4⟩ := ih (c :: visited)
      refine ⟨?_, ?_, ?_, ?_⟩
      · intro x hx
        exact h1 x (List.mem_cons_of_mem _ hx)
      · exact List.nodup_cons.mpr ⟨fun hmem => (h3 c hmem) (List.mem_cons_self _ _), h2⟩
      · intro u hu
        rcases List.mem_cons.mp hu with h | h
        · subst h
          exact hc
        · intro hv
          exact (h3 u h) (List.mem_cons_of_mem _ hv)
      · intro u hu
        rcases List.mem_cons.mp hu with h | h
        · rw [h]
          exact h1 c (List.mem_cons_self _ _)
        · exact h4 u h

/-- The same specification for a gated follow-up block of `parse`. -/
theorem followBlock_spec (bucket : List String) (depth cap : Nat) (visited : List String) :
    (∀ x ∈ visited, x ∈ (followBlock bucket depth cap visited).1) ∧
    (followBlock bucket depth cap visited).2.Nodup ∧
    (∀ u ∈ (followBlock bucket depth cap visited).2, u ∉ visited) ∧
    (∀ u ∈ (followBlock bucket depth cap visited).2, u ∈ (followBlock bucket depth cap visited).1) := by
  unfold followBlock
  split
  · exact scheduleFollows_spec (bucket.take cap) visited
  · simp

/-- Invariant tying issued page requests to the visited set: the page
requests issued so far are pairwise distinct and all recorded in
`processed_urls`. -/
def CrawlInv (st : CrawlState) : Prop :=
  st.pageFetches.Nodup ∧ ∀ u ∈ st.pageFetches, u ∈ st.processed_urls

/-- Dedup bookkeeping of the three sequential follow-up blocks of
`parse`: starting from a duplicate-free request log `old` whose members
are all in the visited set `P`, the log extended by the three issued
batches is still duplicate-free, and every logged request is in the
final visited set. -/
theorem followTriple_inv (B1 B2 B3 old P : List String) (depth : Nat)
    (hnd : old.Nodup) (hmem : ∀ u ∈ old, u ∈ P) :
    (old ++ ((followBlock B1 depth 3 P).2 ++
        (followBlock B2 depth 2 (followBlock B1 depth 3 P).1).2 ++
        (followBlock B3 depth 2 (followBlock B2 depth 2 (followBlock B1 depth 3 P).1).1).2)).Nodup ∧
    ∀ u ∈ old ++ ((followBlock B1 depth 3 P).2 ++
        (followBlock B2 depth 2 (followBlock B1 depth 3 P).1).2 ++
        (followBlock B3 depth 2 (followBlock B2 depth 2 (followBlock B1 depth 3 P).1).1).2),
      u ∈ (followBlock B3 depth 2 (followBlock B2 depth 2 (followBlock B1 depth 3 P).1).1).1 := by
  obtain ⟨m1, n1, f1, g1⟩ := followBlock_spec B1 depth 3 P
  obtain ⟨m2, n2, f2, g2⟩ := followBlock_spec B2 depth 2 (followBlock B1 depth 3 P).1
  obtain ⟨m3, n3, f3, g3⟩ :=
    followBlock_spec B3 depth 2 (followBlock B2 depth 2 (followBlock B1 depth 3 P).1).1
  constructor
  · refine List.Nodup.append hnd ?_ ?_
    · refine List.Nodup.append (List.Nodup.append n1 n2 ?_) n3 ?_
      · intro u hu1 hu2
        exact f2 u hu2 (g1 u hu1)
      · intro u hu12 hu3
        rcases List.mem_append.mp hu12 with h12 | h12
        · exact f3 u hu3 (m2 u (g1 u h12))
        · exact f3 u hu3 (g2 u h12)
    · intro u huold hunew
      have hu0 : u ∈ P := hmem u huold
      rcases List.mem_append.mp hunew with h12 | h3
      · rcases List.mem_append.mp h12 with h1 | h2
        · exact f1 u h1 hu0
        · exact f2 u h2 (m1 u hu0)
      · exact f3 u h3 (m2 u (m1 u hu0))
  · intro u hu
    rcases List.mem_append.mp hu with hold | hnew
    · exact m3 u (m2 u (m1 u (hmem u hold)))
    · rcases List.mem_append.mp hnew with h12 | h3
      · rcases List.mem_append.mp h12 with h1 | h2
        · exact m3 u (m2 u (g1 u h1))
        · exact m3 u (g2 u h2)
      · exact g3 u h3

/-- One `parse` call preserves the dedup invariant on page requests. -/
theorem parsePage_inv (web : String → List String) (st : CrawlState)
    (url : String) (depth : Nat) (h : CrawlInv st) :
    CrawlInv (parsePage web st url depth) := by
  obtain ⟨hnd, hmem⟩ := h
  simp only [parsePage]
  split
  · exact ⟨hnd, hmem⟩
  · refine ⟨?_, ?_⟩
    · exact (followTriple_inv _ _ _ st.pageFetches st.processed_urls depth hnd hmem).1
    · exact (followTriple_inv _ _ _ st.pageFetches st.processed_urls depth hnd hmem).2

/-- The whole crawl run preserves the dedup invariant. -/
theorem crawl_inv (web : String → List String) (fuel : Nat) :
    ∀ st : CrawlState, CrawlInv st → CrawlInv (crawl web fuel st) := by
  induction fuel with
  | zero =>
    intro st h
    exact h
  | succ n ih =>
    intro st h
    unfold crawl
    cases hq : st.queue with
    | nil => exact h
    | cons p rest =>
      obtain ⟨url, depth⟩ := p
      exact ih _ (parsePage_inv web { st with queue := rest } url depth ⟨h.1, h.2⟩)

/-- The initial state of `start_requests` satisfies the invariant as soon
as the normalized seed list carries no duplicate. -/
theorem initState_inv (sources : List String)
    (h : (sources.filterMap normalizeSeed).Nodup) : CrawlInv (initState sources) := by
  constructor
  · exact h
  · intro u hu
    exact mem_foldl_addVisited _ _ u (Or.inr hu)

/-- C3 amended: page fetch requests (seed and follow-up category,
pagination and internal-nav requests) are deduplicated through
`processed_urls` — no page URL is requested twice in a run, provided the
normalized seed list itself has no duplicate — but article fetch
requests are neither checked against nor recorded in the visited set,
so an article URL discovered on two different pages is fetched twice
(see the counterexample). -/
theorem C3_page_dedup (web : String → List String) (fuel : Nat) (sources : List String)
    (h : (sources.filterMap normalizeSeed).Nodup) :
    (crawl web fuel (initState sources)).pageFetches.Nodup :=
  (crawl_inv web fuel (initState sources) (initState_inv sources h)).1

/-- C3 amended, witness on the concrete two-page site. -/
theorem C3_page_dedup_witness :
    (crawl webC3 4 (initState ["b.com"])).pageFetches.Nodup :=
  C3_page_dedup webC3 4 ["b.com"] (by decide)

/-! ## Content extraction fallback chain (`parse_article`) -/

/-- The guard `not content or len(content.strip()) < 100` of
`parse_article` (`none` models Python `None`). -/
def contentShort : Option String → Bool
  | none => true
  | some s => s == "" || (pyStrip s).length < 100

/-- The content after the three-tier fallback of `parse_article` (lines
384-393): trafilatura output, replaced by the CSS-selector output when
missing or under 100 stripped characters, replaced by the raw-text
output when still missing or short.  The three extractor outputs are
oracle inputs (they are functions of the fetched HTML, which is outside
the model). -/
def chooseContent (traf css basic : Option String) : Option String :=
  if contentShort traf then
    (if contentShort css then basic else css)
  else traf

/-- Whether the control flow of `parse_article` reaches the CSS-selector
extraction call (`extract_with_css` runs iff the trafilatura content is
missing or short). -/
def cssTierRan (traf : Option String) : Bool :=
  contentShort traf

/-- Whether the control flow of `parse_article` reaches the raw-text
extraction call (`extract_basic_text` runs iff the content after the CSS
tier is still missing or short). -/
def basicTierRan (traf css : Option String) : Bool :=
  contentShort (if contentShort traf then css else traf)

/-- The article record assembled by `parse_article`; `extraction_method`
is the string stored in the emitted dictionary. -/
structure ArticleData where
  url : String
  title : Option String
  content : String
  publish_date : Option String
  domain : String
  extraction_method : String
deriving DecidableEq

/-- Model of `TrafilaturaSpider.parse_article`: run the fallback chain,
accept only content that is non-empty with over 100 stripped characters
(`if content and len(content.strip()) > 100`), check recency (the date
arithmetic is an oracle boolean), and emit the article dictionary —
whose `extraction_method` field is the literal `'trafilatura'` on every
path. -/
def parse_article (url dom : String) (traf css basic : Option String)
    (title publish_date : Option String) (isRecent : Bool) : Option ArticleData :=
  match chooseContent traf css basic with
  | none => none
  | some c =>
    if c ≠ "" ∧ 100 < (pyStrip c).length then
      if isRecent then
        some { url := url, title := title, content := c, publish_date := publish_date,
               domain := dom, extraction_method := "trafilatura" }
      else none
    else none

/-- The three extraction tiers named by the specification. -/
inductive Tier where
  | structured
  | selector
  | rawtext
deriving DecidableEq

/-- Modelled from the spec: the name under which each tier would be
recorded ("structured (trafilatura)", "selector-based", "raw-text"). -/
def tierName : Tier → String
  | Tier.structured => "trafilatura"
  | Tier.selector => "selector"
  | Tier.rawtext => "raw-text"

/-- Modelled from the spec: the first tier among structured, selector,
raw-text whose output has at least 100 (stripped) characters. -/
def firstAdequateTier (traf css basic : Option String) : Option Tier :=
  if contentShort traf = false then some Tier.structured
  else if contentShort css = false then some Tier.selector
  else if contentShort basic = false then some Tier.rawtext
  else none

/-- The oracle output belonging to a tier. -/
def tierOutput (traf css basic : Option String) : Tier → Option String
  | Tier.structured => traf
  | Tier.selector => css
  | Tier.rawtext => basic

/-- Fallback-chain characterization: the structured tier wins when its
output is adequate. -/
theorem chooseContent_struct (traf css basic : Option String)
    (h : contentShort traf = false) : chooseContent traf css basic = traf := by
  simp [chooseContent, h]

/-- Fallback-chain characterization: the selector tier wins when the
structured output is short and the selector output is adequate. -/
theorem chooseContent_sel (traf css basic : Option String)
    (h1 : contentShort traf = true) (h2 : contentShort css = false) :
    chooseContent traf css basic = css := by
  simp [chooseContent, h1, h2]

/-- Fallback-chain characterization: the raw-text tier is what remains
when the structured and selector outputs are both short. -/
theorem chooseContent_raw (traf css basic : Option String)
    (h1 : contentShort traf = true) (h2 : contentShort css = true) :
    chooseContent traf css basic = basic := by
  simp [chooseContent, h1, h2]

/-! ## Claim C4: `extraction_method` versus the winning tier -/

/-- The concrete selector-tier output used in the C4 counterexample. -/
def longSel : String := String.mk (List.replicate 150 'b')

/-- C4 counterexample: with no trafilatura output and a 150-character
CSS-selector output, the accepted article's content comes from the
selector tier, yet the stored `extraction_method` is the constant
string `'trafilatura'` — the structured tier's name, not the selector
tier's — because line 419 of the spider hardcodes it. -/
theorem C4_method_counterexample :
    (parse_article "u" "d" none (some longSel) none none none true).map
        ArticleData.extraction_method = some "trafilatura" ∧
    (parse_article "u" "d" none (some longSel) none none none true).map
        ArticleData.content = some longSel ∧
    firstAdequateTier none (some longSel) none = some Tier.selector ∧
    tierName Tier.selector ≠ "trafilatura" := by
  refine ⟨by decide, by decide, by decide, by decide⟩

/-- C4 amended: the content of every accepted article does come from the
first tier whose output has at least 100 stripped characters, and when
the structured tier is adequate the selector and raw-text extractors are
not invoked at all; but the stored `extraction_method` field is always
the constant `'trafilatura'`, whichever tier produced the content. -/
theorem C4_tier_amended (url dom : String) (traf css basic title pd : Option String)
    (isRecent : Bool) (a : ArticleData)
    (h : parse_article url dom traf css basic title pd isRecent = some a) :
    a.extraction_method = "trafilatura" ∧
    (∀ t : Tier, firstAdequateTier traf css basic = some t →
      some a.content = tierOutput traf css basic t) ∧
    (contentShort traf = false →
      cssTierRan traf = false ∧ basicTierRan traf css = false) := by
  unfold parse_article at h
  split at h
  · exact absurd h (by simp)
  · rename_i c hc
    split at h
    · split at h
      · have ha := Option.some.inj h
        subst ha
        refine ⟨rfl, ?_, ?_⟩
        · intro t ht
          unfold firstAdequateTier at ht
          split at ht
          · rename_i h1
            cases Option.some.inj ht
            exact hc.symm.trans (chooseContent_struct traf css basic h1)
          · rename_i h1
            have h1x : contentShort traf = true := by simpa using h1
            split at ht
            · rename_i h2
              cases Option.some.inj ht
              exact hc.symm.trans (chooseContent_sel traf css basic h1x h2)
            · rename_i h2
              have h2x : contentShort css = true := by simpa using h2
              split at ht
              · rename_i h3
                cases Option.some.inj ht
                exact hc.symm.trans (chooseContent_raw traf css basic h1x h2x)
              · exact absurd ht (by simp)
        · intro htraf
          unfold cssTierRan basicTierRan
          simp [htraf]
      · exact absurd h (by simp)
    · exact absurd h (by simp)

/-- The concrete structured-tier output used in the C4 witness. -/
def longTraf : String := String.mk (List.replicate 150 'c')

/-- C4 amended, witness: a 150-character trafilatura output is accepted
as-is. -/
theorem C4_tier_amended_witness :
    (⟨"u", none, longTraf, none, "d", "trafilatura"⟩ : ArticleData).extraction_method =
        "trafilatura" ∧
    (∀ t : Tier, firstAdequateTier (some longTraf) none none = some t →
      some (⟨"u", none, longTraf, none, "d", "trafilatura"⟩ : ArticleData).content =
        tierOutput (some longTraf) none none t) ∧
    (contentShort (some longTraf) = false →
      cssTierRan (some longTraf) = false ∧ basicTierRan (some longTraf) none = false) :=
  C4_tier_amended "u" "d" (some longTraf) none none none none true
    ⟨"u", none, longTraf, none, "d", "trafilatura"⟩ (by decide)

/-! ## Scraper run cache (`run_scraper` / `clear_scraper_cache`) -/

/-- Lexicographic (code-point) order on character lists, Python's string
comparison used by `sorted`. -/
def lexLeChars : List Char → List Char → Bool
  | [], _ => true
  | _ :: _, [] => false
  | a :: as, b :: bs => if a < b then true else if b < a then false else lexLeChars as bs

/-- Python's `≤` on strings, as a relation for sorting. -/
def strLeR (a b : String) : Prop := lexLeChars a.data b.data = true

instance : DecidableRel strLeR := fun a b => inferInstanceAs (Decidable (_ = true))

/-- Totality of the lexicographic order. -/
theorem lexLeChars_total (a : List Char) : ∀ b : List Char,
    lexLeChars a b = true ∨ lexLeChars b a = true := by
  induction a with
  | nil => intro b; left; rfl
  | cons x xs ih =>
    intro b
    cases b with
    | nil => right; rfl
    | cons y ys =>
      by_cases hxy : x < y
      · left; simp [lexLeChars, hxy]
      · by_cases hyx : y < x
        · right; simp [lexLeChars, hyx, hxy]
        · have hx : x = y := le_antisymm (not_lt.mp hyx) (not_lt.mp hxy)
          subst hx
          rcases ih ys with h | h
          · left; simp [lexLeChars, lt_irrefl, h]
          · right; simp [lexLeChars, lt_irrefl, h]

/-- Antisymmetry of the lexicographic order. -/
theorem lexLeChars_antisymm (a : List Char) : ∀ b : List Char,
    lexLeChars a b = true → lexLeChars b a = true → a = b := by
  induction a with
  | nil =>
    intro b hab hba
    cases b with
    | nil => rfl
    | cons y ys => exact absurd hba (by simp [lexLeChars])
  | cons x xs ih =>
    intro b hab hba
    cases b with
    | nil => exact absurd hab (by simp [lexLeChars])
    | cons y ys =>
      by_cases hxy : x < y
      · rw [lexLeChars, if_neg (lt_asymm hxy), if_pos hxy] at hba
        exact absurd hba (by simp)
      · by_cases hyx : y < x
        · rw [lexLeChars, if_neg (lt_asymm hyx), if_pos hyx] at hab
          exact absurd hab (by simp)
        · have hx : x = y := le_antisymm (not_lt.mp hyx) (not_lt.mp hxy)
          subst hx
          rw [lexLeChars, if_neg (lt_irrefl x), if_neg (lt_irrefl x)] at hab hba
          rw [ih ys hab hba]

/-- Transitivity of the lexicographic order. -/
theorem lexLeChars_trans (a : List Char) : ∀ b c : List Char,
    lexLeChars a b = true → lexLeChars b c = true → lexLeChars a c = true := by
  induction a with
  | nil => intro b c _ _; rfl
  | cons x xs ih =>
    intro b c hab hbc
    cases b with
    | nil => exact absurd hab (by simp [lexLeChars])
    | cons y ys =>
      cases c with
      | nil => exact absurd hbc (by simp [lexLeChars])
      | cons z zs =>
        by_cases hxy : x < y
        · by_cases hyz : y < z
          · simp [lexLeChars, lt_trans hxy hyz]
          · by_cases hzy : z < y
            · rw [lexLeChars, if_neg (lt_asymm hzy), if_pos hzy] at hbc
              exact absurd hbc (by simp)
            · have : y = z := le_antisymm (not_lt.mp hzy) (not_lt.mp hyz)
              subst this
              simp [lexLeChars, hxy]
        · by_cases hyx : y < x
          · rw [lexLeChars, if_neg (lt_asymm hyx), if_pos hyx] at hab
            exact absurd hab (by simp)
          · have hx : x = y := le_antisymm (not_lt.mp hyx) (not_lt.mp hxy)
            subst hx
            rw [lexLeChars, if_neg (lt_irrefl x), if_neg (lt_irrefl x)] at hab
            by_cases hyz : x < z
            · simp [lexLeChars, hyz]
            · by_cases hzy : z < x
              · rw [lexLeChars, if_neg (lt_asymm hzy), if_pos hzy] at hbc
                exact absurd hbc (by simp)
              · have : x = z := le_antisymm (not_lt.mp hzy) (not_lt.mp hyz)
                subst this
                rw [lexLeChars, if_neg (lt_irrefl x), if_neg (lt_irrefl x)] at hbc ⊢
                exact ih ys zs hab hbc

instance : IsTotal String strLeR := ⟨fun a b => lexLeChars_total a.data b.data⟩

instance : IsTrans String strLeR := ⟨fun a b c => lexLeChars_trans a.data b.data c.data⟩

instance : IsAntisymm String strLeR :=
  ⟨fun a b hab hba => by
    cases a
    cases b
    exact congrArg String.mk (lexLeChars_antisymm _ _ hab hba)⟩

/-- Python `tuple(sorted(sources))`: the sources in nondecreasing
code-point order.  The cache key of `run_scraper`. -/
def sortSources (sources : List String) : List String :=
  List.insertionSort strLeR sources

/-- The cache key is invariant under permutation of the source list. -/
theorem sortSources_perm_eq (s1 s2 : List String) (h : s1.Perm s2) :
    sortSources s1 = sortSources s2 :=
  List.eq_of_perm_of_sorted
    (((List.perm_insertionSort strLeR s1).trans h).trans
      (List.perm_insertionSort strLeR s2).symm)
    (List.sorted_insertionSort strLeR s1) (List.sorted_insertionSort strLeR s2)

/-- Process-wide state of `run_scraper`: the dictionary
`run_scraper._cache` (a key-value list; absent attribute is the empty
list) and the number of times the scrapy subprocess has been launched.
`β` is the type of one article record (the cache claims never inspect
it). -/
structure ScraperState (β : Type) where
  cache : List (List String × List β)
  spiderRuns : Nat
deriving DecidableEq

/-- Python dictionary lookup `cache_key in run_scraper._cache`. -/
def lookupCache {β : Type} : List (List String × List β) → List String → Option (List β)
  | [], _ => none
  | (k, v) :: rest, key => if k = key then some v else lookupCache rest key

/-- Model of `run_scraper(sources, force_fresh)`: on `force_fresh` the
whole cache is cleared first (`clear_scraper_cache` calls
`_cache.clear()`); then the sorted-sources key is looked up and a hit is
returned as-is; on a miss the spider subprocess runs, the output file is
read (`spiderOut sources = none` models a missing file or invalid JSON,
degraded to `[]`), and the result — whatever it is — is stored under the
key. -/
def run_scraper {β : Type} (spiderOut : List String → Option (List β))
    (st : ScraperState β) (sources : List String) (force_fresh : Bool) :
    List β × ScraperState β :=
  let st1 := if force_fresh then { st with cache := [] } else st
  let key := sortSources sources
  match lookupCache st1.cache key with
  | some articles => (articles, st1)
  | none =>
    ((spiderOut sources).getD [],
     { cache := (key, (spiderOut sources).getD []) :: st1.cache,
       spiderRuns := st1.spiderRuns + 1 })

/-- Cache-hit characterization of `run_scraper` without the force-fresh
flag. -/
theorem run_scraper_false_hit {β : Type} (spiderOut : List String → Option (List β))
    (st : ScraperState β) (sources : List String) (a : List β)
    (h : lookupCache st.cache (sortSources sources) = some a) :
    run_scraper spiderOut st sources false = (a, st) := by
  unfold run_scraper
  simp [h]

/-- Cache-miss characterization of `run_scraper` without the force-fresh
flag: the spider runs once and the result is stored unconditionally. -/
theorem run_scraper_false_miss {β : Type} (spiderOut : List String → Option (List β))
    (st : ScraperState β) (sources : List String)
    (h : lookupCache st.cache (sortSources sources) = none) :
    run_scraper spiderOut st sources false =
      ((spiderOut sources).getD [],
       ⟨(sortSources sources, (spiderOut sources).getD []) :: st.cache,
        st.spiderRuns + 1⟩) := by
  unfold run_scraper
  simp [h]

/-! ## Claim C5: cache idempotence over unordered-equal source lists -/

/-- C5 counterexample: the claim quantifies over source lists that are
equal as unordered sets.  `["a.com"]` and `["a.com", "a.com"]` are
set-equal, but the cache key is the sorted tuple — which distinguishes
multiplicities — so the second call misses the cache and launches the
spider subprocess a second time. -/
theorem C5_cache_counterexample :
    (["a.com"] : List String).toFinset = (["a.com", "a.com"] : List String).toFinset ∧
    ((run_scraper (fun _ => some ([7] : List Nat)) ⟨[], 0⟩ ["a.com"] false).2).spiderRuns = 1 ∧
    ((run_scraper (fun _ => some ([7] : List Nat))
        (run_scraper (fun _ => some ([7] : List Nat)) ⟨[], 0⟩ ["a.com"] false).2
        ["a.com", "a.com"] false).2).spiderRuns = 2 := by
  refine ⟨by decide, by decide, by decide⟩

/-- C5 amended: for any two source lists that are permutations of each
other (equal as multisets), a second `run_scraper` call without the
force-fresh flag returns the identical article list from the cache and
leaves the state — including the spider-launch count — untouched; the
sorted-tuple cache key is invariant under reordering. -/
theorem C5_cache_perm {β : Type} (spiderOut : List String → Option (List β))
    (st : ScraperState β) (s1 s2 : List String) (hperm : s1.Perm s2)
    (a : List β) (st1 : ScraperState β)
    (h1 : run_scraper spiderOut st s1 false = (a, st1)) :
    run_scraper spiderOut st1 s2 false = (a, st1) := by
  have hkey : sortSources s2 = sortSources s1 := sortSources_perm_eq s2 s1 hperm.symm
  rcases hl : lookupCache st.cache (sortSources s1) with _ | arts
  · rw [run_scraper_false_miss spiderOut st s1 hl] at h1
    have ha : (spiderOut s1).getD [] = a := congrArg Prod.fst h1
    have hst : (⟨(sortSources s1, (spiderOut s1).getD []) :: st.cache,
        st.spiderRuns + 1⟩ : ScraperState β) = st1 := congrArg Prod.snd h1
    apply run_scraper_false_hit
    rw [hkey, ← hst]
    show (if sortSources s1 = sortSources s1 then some ((spiderOut s1).getD [])
        else lookupCache st.cache (sortSources s1)) = some a
    rw [if_pos rfl, ha]
  · rw [run_scraper_false_hit spiderOut st s1 arts hl] at h1
    have ha : arts = a := congrArg Prod.fst h1
    have hst : st = st1 := congrArg Prod.snd h1
    apply run_scraper_false_hit
    rw [hkey, ← hst, hl, ha]

/-- C5 amended, witness: re-running on the reversed two-source list hits
the cache. -/
theorem C5_cache_perm_witness :
    run_scraper (fun _ => some ([7] : List Nat)) ⟨[(["a.com", "b.com"], [7])], 1⟩
        ["a.com", "b.com"] false =
      ([7], ⟨[(["a.com", "b.com"], [7])], 1⟩) :=
  C5_cache_perm (fun _ => some [7]) ⟨[], 0⟩ ["b.com", "a.com"] ["a.com", "b.com"]
    (List.Perm.swap "a.com" "b.com" []) [7] ⟨[(["a.com", "b.com"], [7])], 1⟩ (by decide)

/-! ## Claim C6: what the force-fresh flag invalidates -/

/-- C6 counterexample: the claim says only the running key's cache entry
is invalidated.  `clear_scraper_cache` calls `_cache.clear()`, so a
force-fresh run for `["a.com"]` also erases the entry stored under the
unrelated key `["b.com"]`. -/
theorem C6_other_keys_counterexample :
    lookupCache ((⟨[(["a.com"], [1]), (["b.com"], [2])], 0⟩ : ScraperState Nat).cache)
        ["b.com"] = some [2] ∧
    lookupCache ((run_scraper (fun _ => some ([9] : List Nat))
        ⟨[(["a.com"], [1]), (["b.com"], [2])], 0⟩ ["a.com"] true).2).cache ["b.com"] = none := by
  refine ⟨by decide, by decide⟩

/-- C6 amended: a force-fresh run clears the entire process-wide cache
(every key), then scrapes and stores its own key's fresh result, which
is the only entry left. -/
theorem C6_force_fresh_clears_all {β : Type} (spiderOut : List String → Option (List β))
    (st : ScraperState β) (sources : List String) :
    run_scraper spiderOut st sources true =
      ((spiderOut sources).getD [],
       ⟨[(sortSources sources, (spiderOut sources).getD [])], st.spiderRuns + 1⟩) := by
  unfold run_scraper
  simp [lookupCache]

/-! ## Claim C10: failure results are cached like any other -/

/-- C10: when the spider run leaves no readable output (missing file or
invalid JSON), `run_scraper` degrades to `[]` and stores that empty list
in the cache unconditionally, so every later call with a reordering of
the same source list and no force-fresh flag returns the cached empty
list without launching the spider again (the state, including the
launch count, is unchanged). -/
theorem C10_empty_cached {β : Type} (spiderOut : List String → Option (List β))
    (st : ScraperState β) (s1 s2 : List String) (hperm : s1.Perm s2)
    (hfail : spiderOut s1 = none)
    (hmiss : lookupCache st.cache (sortSources s1) = none) :
    (run_scraper spiderOut st s1 false).1 = [] ∧
    (run_scraper spiderOut st s1 false).2.spiderRuns = st.spiderRuns + 1 ∧
    run_scraper spiderOut (run_scraper spiderOut st s1 false).2 s2 false =
      ([], (run_scraper spiderOut st s1 false).2) := by
  have hrun := run_scraper_false_miss spiderOut st s1 hmiss
  rw [hrun]
  refine ⟨by simp [hfail], rfl, ?_⟩
  apply run_scraper_false_hit
  rw [sortSources_perm_eq s2 s1 hperm.symm]
  show (if sortSources s1 = sortSources s1 then some ((spiderOut s1).getD [])
      else lookupCache st.cache (sortSources s1)) = some []
  rw [if_pos rfl, hfail]
  rfl

/-- C10 witness: a failed spider run on two sources caches `[]`, and the
permuted second call returns it without a second launch. -/
theorem C10_empty_cached_witness :
    (run_scraper (fun _ => (none : Option (List Nat))) ⟨[], 0⟩ ["b.com", "a.com"] false).1 = [] ∧
    (run_scraper (fun _ => (none : Option (List Nat)))
        ⟨[], 0⟩ ["b.com", "a.com"] false).2.spiderRuns = 1 ∧
    run_scraper (fun _ => (none : Option (List Nat)))
        (run_scraper (fun _ => (none : Option (List Nat))) ⟨[], 0⟩ ["b.com", "a.com"] false).2
        ["a.com", "b.com"] false =
      ([], (run_scraper (fun _ => (none : Option (List Nat)))
        ⟨[], 0⟩ ["b.com", "a.com"] false).2) :=
  C10_empty_cached (fun _ => none) ⟨[], 0⟩ ["b.com", "a.com"] ["a.com", "b.com"]
    (List.Perm.swap "a.com" "b.com" []) rfl rfl

/-! ## Batched relevance filter (`batch_filter_articles`) -/

/-- The inner response loop of `batch_filter_articles` (lines 223-227):
the LLM's answer lines are walked in order (`zip` models the
`j < len(batch)` guard), each Yes-line appends the matching article, and
the function returns the whole result as soon as the accumulated list
reaches 5 (`len(relevant_articles) >= 5`).  The boolean result records
whether that early return fired. -/
def procBatch {α : Type} : List (α × Bool) → List α → List α × Bool
  | [], acc => (acc, false)
  | (a, ans) :: rest, acc =>
    if ans then
      if 5 ≤ (acc ++ [a]).length then (acc ++ [a], true)
      else procBatch rest (acc ++ [a])
    else procBatch rest acc

/-- The batch loop of `batch_filter_articles`: one collaborator call per
batch (`oracle b = none` models a raised exception, caught and logged —
that batch contributes nothing), early return on reaching 5 relevant
articles, otherwise continue with the next batch.  The second component
counts the collaborator calls issued. -/
def batchFilterGo {α : Type} (oracle : List α → Option (List Bool)) :
    List (List α) → List α → List α × Nat
  | [], acc => (acc, 0)
  | b :: bs, acc =>
    match oracle b with
    | none => ((batchFilterGo oracle bs acc).1, (batchFilterGo oracle bs acc).2 + 1)
    | some answers =>
      if (procBatch (b.zip answers) acc).2 then ((procBatch (b.zip answers) acc).1, 1)
      else ((batchFilterGo oracle bs (procBatch (b.zip answers) acc).1).1,
            (batchFilterGo oracle bs (procBatch (b.zip answers) acc).1).2 + 1)

/-- Python `articles[i:i+BATCH_SIZE]` slicing with `BATCH_SIZE = 5`. -/
def chunkBatches {α : Type} : List α → List (List α)
  | [] => []
  | a :: rest => (a :: rest.take 4) :: chunkBatches (rest.drop 4)
termination_by l => l.length
decreasing_by simp [List.length_drop]; omega

/-- Model of `batch_filter_articles(articles, business_interest, llm)`:
batches of 5, empty accumulator, the collaborator abstracted into the
per-batch oracle.  Returns the relevant articles and the number of
collaborator calls. -/
def batch_filter_articles {α : Type} (oracle : List α → Option (List Bool))
    (articles : List α) : List α × Nat :=
  batchFilterGo oracle (chunkBatches articles) []

/-- Per-batch bookkeeping: starting under the cap, the accumulator never
exceeds 5, the early-return flag fires exactly at 5. -/
theorem procBatch_len {α : Type} (l : List (α × Bool)) : ∀ acc : List α,
    acc.length < 5 →
    (procBatch l acc).1.length ≤ 5 ∧
    ((procBatch l acc).2 = true → (procBatch l acc).1.length = 5) ∧
    ((procBatch l acc).2 = false → (procBatch l acc).1.length < 5) := by
  induction l with
  | nil =>
    intro acc h
    refine ⟨le_of_lt h, ?_, fun _ => h⟩
    intro hh
    exact absurd hh (by simp [procBatch])
  | cons p ps ih =>
    intro acc h
    obtain ⟨a, ans⟩ := p
    cases ans with
    | false => exact ih acc h
    | true =>
      by_cases hlen : 5 ≤ (acc ++ [a]).length
      · have hr : procBatch ((a, true) :: ps) acc = (acc ++ [a], true) := by
          show (if 5 ≤ (acc ++ [a]).length then (acc ++ [a], true)
              else procBatch ps (acc ++ [a])) = (acc ++ [a], true)
          rw [if_pos hlen]
        rw [hr]
        have h5 : (acc ++ [a]).length = 5 := by
          simp only [List.length_append, List.length_cons, List.length_nil] at hlen ⊢
          omega
        exact ⟨le_of_eq h5, fun _ => h5, fun hf => absurd hf (by simp)⟩
      · have hr : procBatch ((a, true) :: ps) acc = procBatch ps (acc ++ [a]) := by
          show (if 5 ≤ (acc ++ [a]).length then (acc ++ [a], true)
              else procBatch ps (acc ++ [a])) = procBatch ps (acc ++ [a])
          rw [if_neg hlen]
        rw [hr]
        refine ih (acc ++ [a]) ?_
        simp only [List.length_append, List.length_cons, List.length_nil] at hlen ⊢
        omega

/-- The loop over batches never accumulates more than 5 relevant
articles. -/
theorem batchFilterGo_len {α : Type} (oracle : List α → Option (List Bool))
    (bs : List (List α)) : ∀ acc : List α, acc.length < 5 →
    (batchFilterGo oracle bs acc).1.length ≤ 5 := by
  induction bs with
  | nil =>
    intro acc h
    exact le_of_lt h
  | cons b rest ih =>
    intro acc h
    rcases ho : oracle b with _ | answers
    · have e1 : batchFilterGo oracle (b :: rest) acc =
          ((batchFilterGo oracle rest acc).1, (batchFilterGo oracle rest acc).2 + 1) := by
        simp [batchFilterGo, ho]
      rw [e1]
      exact ih acc h
    · by_cases hreach : (procBatch (b.zip answers) acc).2 = true
      · have e1 : batchFilterGo oracle (b :: rest) acc =
            ((procBatch (b.zip answers) acc).1, 1) := by
          simp [batchFilterGo, ho, hreach]
        rw [e1]
        exact (procBatch_len (b.zip answers) acc h).1
      · have hb : (procBatch (b.zip answers) acc).2 = false := by simpa using hreach
        have e1 : batchFilterGo oracle (b :: rest) acc =
            ((batchFilterGo oracle rest (procBatch (b.zip answers) acc).1).1,
             (batchFilterGo oracle rest (procBatch (b.zip answers) acc).1).2 + 1) := by
          simp [batchFilterGo, ho, hb]
        rw [e1]
        exact ih _ ((procBatch_len (b.zip answers) acc h).2.2 hb)

/-- Early exit: once a prefix of the batch list already reaches 5
relevant articles, appending further batches changes neither the result
nor the number of collaborator calls. -/
theorem batchFilterGo_early {α : Type} (oracle : List α → Option (List Bool))
    (bs1 : List (List α)) : ∀ (bs2 : List (List α)) (acc : List α),
    acc.length < 5 →
    (batchFilterGo oracle bs1 acc).1.length = 5 →
    batchFilterGo oracle (bs1 ++ bs2) acc = batchFilterGo oracle bs1 acc := by
  induction bs1 with
  | nil =>
    intro bs2 acc hlt h5
    exact absurd h5 (Nat.ne_of_lt hlt)
  | cons b rest ih =>
    intro bs2 acc hlt h5
    rcases ho : oracle b with _ | answers
    · have e1 : batchFilterGo oracle (b :: rest) acc =
          ((batchFilterGo oracle rest acc).1, (batchFilterGo oracle rest acc).2 + 1) := by
        simp [batchFilterGo, ho]
      have e2 : batchFilterGo oracle ((b :: rest) ++ bs2) acc =
          ((batchFilterGo oracle (rest ++ bs2) acc).1,
           (batchFilterGo oracle (rest ++ bs2) acc).2 + 1) := by
        simp [batchFilterGo, ho]
      rw [e1] at h5 ⊢
      rw [e2, ih bs2 acc hlt (by simpa using h5)]
    · by_cases hreach : (procBatch (b.zip answers) acc).2 = true
      · have e1 : batchFilterGo oracle (b :: rest) acc =
            ((procBatch (b.zip answers) acc).1, 1) := by
          simp [batchFilterGo, ho, hreach]
        have e2 : batchFilterGo oracle ((b :: rest) ++ bs2) acc =
            ((procBatch (b.zip answers) acc).1, 1) := by
          simp [batchFilterGo, ho, hreach]
        rw [e1, e2]
      · have hb : (procBatch (b.zip answers) acc).2 = false := by simpa using hreach
        have hlt2 : (procBatch (b.zip answers) acc).1.length < 5 :=
          (procBatch_len (b.zip answers) acc hlt).2.2 hb
        have e1 : batchFilterGo oracle (b :: rest) acc =
            ((batchFilterGo oracle rest (procBatch (b.zip answers) acc).1).1,
             (batchFilterGo oracle rest (procBatch (b.zip answers) acc).1).2 + 1) := by
          simp [batchFilterGo, ho, hb]
        have e2 : batchFilterGo oracle ((b :: rest) ++ bs2) acc =
            ((batchFilterGo oracle (rest ++ bs2) (procBatch (b.zip answers) acc).1).1,
             (batchFilterGo oracle (rest ++ bs2) (procBatch (b.zip answers) acc).1).2 + 1) := by
          simp [batchFilterGo, ho, hb]
        rw [e1] at h5 ⊢
        rw [e2, ih bs2 _ hlt2 (by simpa using h5)]

/-! ## Claim C7: the cap of 5 relevant articles and the early return -/

/-- C7: the relevance stage never returns more than 5 articles, and as
soon as a prefix of the batch list reaches the 5th relevant article the
remaining batches are not processed: the result and the collaborator
call count over the extended batch list equal those over the prefix
alone. -/
theorem C7_relevance_cap {α : Type} (oracle : List α → Option (List Bool))
    (articles : List α) :
    (batch_filter_articles oracle articles).1.length ≤ 5 ∧
    ∀ (bs1 bs2 : List (List α)) (acc : List α), acc.length < 5 →
      (batchFilterGo oracle bs1 acc).1.length = 5 →
      batchFilterGo oracle (bs1 ++ bs2) acc = batchFilterGo oracle bs1 acc :=
  ⟨batchFilterGo_len oracle (chunkBatches articles) [] (by simp),
   fun bs1 bs2 acc h1 h2 => batchFilterGo_early oracle bs1 bs2 acc h1 h2⟩

/-- C7 witness: with an all-Yes collaborator over ten articles, the
result is capped at 5 and the second batch is never consulted. -/
theorem C7_relevance_cap_witness :
    (batch_filter_articles (fun b => some (b.map (fun _ => true)))
        ([1, 2, 3, 4, 5, 6, 7, 8, 9, 10] : List Nat)).1.length ≤ 5 ∧
    batchFilterGo (fun b => some (b.map (fun _ => true)))
        ([[1, 2, 3, 4, 5]] ++ [[6, 7, 8, 9, 10]]) ([] : List Nat) =
      batchFilterGo (fun b => some (b.map (fun _ => true))) [[1, 2, 3, 4, 5]] [] :=
  ⟨(C7_relevance_cap (fun b => some (b.map (fun _ => true)))
      ([1, 2, 3, 4, 5, 6, 7, 8, 9, 10] : List Nat)).1,
   (C7_relevance_cap (fun b => some (b.map (fun _ => true)))
       ([1, 2, 3, 4, 5, 6, 7, 8, 9, 10] : List Nat)).2
     [[1, 2, 3, 4, 5]] [[6, 7, 8, 9, 10]] [] (by decide) (by decide)⟩

/-! ## Summarization stage (`summarize_articles_async`) -/

/-- One relevant article as the summarization stage reads it: the
dictionary fields it accesses via `.get` (a `none` title or date models
the `None` the spider may have stored; a missing content key defaults to
the empty string). -/
structure RelArticle where
  title : Option String
  url : Option String
  publish_date : Option String
  content : String
deriving DecidableEq

/-- Post-processing of a collaborator summary (lines 376-380):
`response.content.strip()`, then drop a leading `"Summary:"` tag and
strip again. -/
def cleanSummary (s : String) : String :=
  if pyStarts "Summary:" (pyStrip s) then pyStrip (pyDrop 8 (pyStrip s))
  else pyStrip s

/-- The local fallback of lines 388-390:
`sentences = content.split('.')[:3]` and then
`'. '.join(sentences) + '.' if sentences else content[:200] + "..."`.
Since `str.split` always returns a non-empty list, the `if sentences`
test is always true and the 200-character branch is dead code. -/
def fallbackSummary (content : String) : String :=
  if (pySplitDot content).take 3 ≠ [] then
    pyJoin ". " ((pySplitDot content).take 3) ++ "."
  else pyTake 200 content ++ "..."

/-- The summary text chosen for one article with non-empty content: the
cleaned collaborator response, or the local fallback when the
collaborator call raised (`none`). -/
def articleSummaryText (response : Option String) (content : String) : String :=
  match response with
  | some s => cleanSummary s
  | none => fallbackSummary content

/-- The title lines of one article block (`title = article.get('title',
'No title available'); if title: ...` — the spider always stores a
`title` key, possibly `None`, so `get` returns the stored value and the
truthiness test skips `None` and empty titles). -/
def titleLines : Option String → List String
  | some t => if t ≠ "" then ["**Title:** " ++ t, ""] else []
  | none => []

/-- The published line (`if publish_date:`). -/
def publishedLines : Option String → List String
  | some d => if d ≠ "" then ["**Published:** " ++ d] else []
  | none => []

/-- The rendered block for one article (lines 334-398), together with
the number of collaborator summary calls it issues (1 when the content
is non-empty, 0 otherwise). -/
def articleBlock (response : Option String) (i : Nat) (a : RelArticle) :
    List String × Nat :=
  (["## 📄 Article " ++ toString i, ""] ++
   titleLines a.title ++
   (["**Source:** " ++ a.url.getD "N/A"] ++ publishedLines a.publish_date ++ [""]) ++
   (if a.content ≠ "" then
      ["**Summary:**", "", articleSummaryText response a.content]
    else []) ++
   ["", "---", ""],
   if a.content ≠ "" then 1 else 0)

/-- All article blocks, numbered from 1 (`enumerate(filtered_articles,
1)`), with the collaborator responses given per article by the oracle. -/
def articleBlocks (summarizer : RelArticle → Option String) :
    Nat → List RelArticle → List String × Nat
  | _, [] => ([], 0)
  | i, a :: rest =>
    ((articleBlock (summarizer a) i a).1 ++ (articleBlocks summarizer (i + 1) rest).1,
     (articleBlock (summarizer a) i a).2 + (articleBlocks summarizer (i + 1) rest).2)

/-- Model of `summarize_articles_async`: the empty-input sentinel, the
short-content filter (`len(...) < 100` skips), the second sentinel when
everything is filtered, else the header, the per-article blocks and the
footer joined by newlines.  Returns the summary and the number of
collaborator summarization calls. -/
def summarize_articles (summarizer : RelArticle → Option String)
    (business_interest : String) (relevant_articles : List RelArticle) :
    String × Nat :=
  if relevant_articles = [] then
    ("No relevant information found for this topic.", 0)
  else
    if relevant_articles.filter (fun a => decide (¬ a.content.length < 100)) = [] then
      ("No relevant articles found after filtering out generic content.", 0)
    else
      (pyJoin "\n"
        (["# 📰 Latest News Summary", "",
          "**Topic:** " ++ business_interest,
          "**Articles Found:** " ++
            toString (relevant_articles.filter (fun a => decide (¬ a.content.length < 100))).length,
          "", "---", ""] ++
         (articleBlocks summarizer 1
            (relevant_articles.filter (fun a => decide (¬ a.content.length < 100)))).1 ++
         ["*Generated by News Analyzer*"]),
       (articleBlocks summarizer 1
          (relevant_articles.filter (fun a => decide (¬ a.content.length < 100)))).2)

/-! ## Claim C8: the local fallback summary -/

/-- The 250-character sentence-boundary-free content of the C8 failing
input. -/
def noDotContent : String := String.mk (List.replicate 250 'a')

/-- C8 failing input, evaluated: when the collaborator raises on an
article whose content has no `'.'` at all, the code's fallback is the
whole content plus a trailing period — not the first 200 characters plus
an ellipsis that the claim (and the dead `else` branch of line 390)
describe, because `content.split('.')` is never empty, so the
`if sentences` guard always takes the join branch. -/
theorem C8_fallback_eval :
    articleSummaryText none noDotContent = noDotContent ++ "." ∧
    articleSummaryText none noDotContent ≠ pyTake 200 noDotContent ++ "..." ∧
    noDotContent.length = 250 := by
  refine ⟨by decide, by decide, by decide⟩

/-! ## Claim C9: the empty-input sentinel -/

/-- C9: when zero relevant articles reach the summarization stage, the
returned summary is the single fixed sentinel message and no
summarization collaborator call is made. -/
theorem C9_empty_sentinel (summarizer : RelArticle → Option String)
    (business_interest : String) :
    summarize_articles summarizer business_interest [] =
      ("No relevant information found for this topic.", 0) := by
  simp [summarize_articles]
